import Mathlib

/-!
Shallow embedding of the real-time telemetry viewer
(`RealTimeAnimation/viewer/graph.js`) and proofs about its spec.

Numbers that are JS floats are modelled as rationals `ℚ` (finite values);
a JS value that may be `NaN`/`Infinity`/missing is modelled as `Option ℚ`
(`none` = non-finite).  The 3D positions involve `cos`/`sin`/`sqrt` and are
modelled over `ℝ`.  DOM / canvas side effects are modelled only as far as
the claims need them (per-row canvas content flag).
-/

namespace RTA

/-- A buffered point, `{t, y}` in `graph.js` (`pushSample`). -/
structure Sample where
  t : ℚ
  y : ℚ
deriving Repr, DecidableEq

/-- The `sampleRateEstimator` object (graph.js lines 18-25), minus the
one-shot `autoAdjusted` flag, which is kept separately in `State` so that
the pure interval/rate bookkeeping is one record. -/
structure Estimator where
  lastTime : Option ℚ
  sampleTimes : List ℚ
  estimatedRate : ℚ
  recommendedWindow : ℚ
  maxSamplesPerNode : ℕ
deriving Repr, DecidableEq

/-- Initial `sampleRateEstimator` field values. -/
def initEstimator : Estimator :=
  { lastTime := none, sampleTimes := [], estimatedRate := 0,
    recommendedWindow := 5, maxSamplesPerNode := 300 }

/-- JS `Math.round` on a rational: round half toward positive infinity. -/
def jsRound (x : ℚ) : ℤ := ⌊x + 1/2⌋

/-- The expression `Math.round(x * 2) / 2` (graph.js line 51): round to the nearest half. -/
def halfRound (x : ℚ) : ℚ := (jsRound (x * 2) : ℚ) / 2

/-- The element `sorted[Math.floor(sorted.length/2)]` where `sorted` is the ascending
sort of the interval history (graph.js lines 45-46). -/
def medianOf (l : List ℚ) : ℚ :=
  let sorted := l.insertionSort (· ≤ ·)
  sorted.getD (sorted.length / 2) 0

/-- Core of `estimateSampleRate(timestamp)` (graph.js lines 36-51, 65):
interval acceptance, bounded history, median rate, recommended window.
The returned boolean records whether the rate/recommendation were
recomputed on this call (the `median > 0` branch was entered); the
display-window auto-adjustment (lines 52-59) lives in
`estimateSampleRate` below, since it touches the shared `windowSec`.
`pushInterval` is the bounded history push of graph.js lines 42-43:
append, then shift the front when more than 20 intervals are stored. -/
def pushInterval (h : List ℚ) (i : ℚ) : List ℚ :=
  let pushed := h ++ [i]
  if 20 < pushed.length then pushed.tail else pushed

def observeEst (now : ℚ) (e : Estimator) : Estimator × Bool :=
  match e.lastTime with
  | none => ({ e with lastTime := some now }, false)
  | some last =>
    let interval := now - last
    if 0 < interval ∧ interval < 10 then
      let times := pushInterval e.sampleTimes interval
      if 10 ≤ times.length then
        let med := medianOf times
        if 0 < med then
          let rate := 1 / med
          let recommended := min 60 (max (1/2) ((e.maxSamplesPerNode : ℚ) / rate))
          ({ e with
              lastTime := some now
              sampleTimes := times
              estimatedRate := rate
              recommendedWindow := halfRound recommended }, true)
        else
          ({ e with lastTime := some now, sampleTimes := times }, false)
      else
        ({ e with lastTime := some now, sampleTimes := times }, false)
    else
      ({ e with lastTime := some now }, false)

/-- Whole mutable state of the 2D strip-chart module (the first IIFE of
graph.js): estimator, shared display window, channel buffers, visibility,
per-row canvas content flag, session clock origin. -/
structure State where
  est : Estimator
  autoAdjusted : Bool
  windowSec : ℚ
  nodeCount : ℕ
  dataByNode : List (List Sample)
  visibleSet : Finset ℕ
  canvases : List Bool
  t0Payload : Option ℚ
  externalActive : Bool
  lastExternalSec : ℚ

/-- Initial 2D state: `nodeCount = 15`, all rows visible, empty buffers.
The initial display window comes from the `win` input element of the HTML
page (not part of the sources), so it is a parameter `w0`. -/
def initState (w0 : ℚ) : State :=
  { est := initEstimator, autoAdjusted := false, windowSec := w0,
    nodeCount := 15, dataByNode := List.replicate 15 [],
    visibleSet := Finset.range 15, canvases := List.replicate 15 false,
    t0Payload := none, externalActive := false, lastExternalSec := 0 }

/-- The condition of the one-shot auto-adjustment (graph.js lines 52-53):
the rate/recommendation were just recomputed, the flag is unset,
`|windowSec - recommendedWindow| > 1` and `windowSec > recommendedWindow`. -/
def adjustFired (now : ℚ) (st : State) : Prop :=
  (observeEst now st.est).2 = true ∧ st.autoAdjusted = false ∧
  1 < |st.windowSec - (observeEst now st.est).1.recommendedWindow| ∧
  (observeEst now st.est).1.recommendedWindow < st.windowSec

instance (now : ℚ) (st : State) : Decidable (adjustFired now st) := by
  unfold adjustFired; infer_instance

/-- Function `estimateSampleRate(timestamp)` (graph.js lines 36-66): update the
estimator and, at most once, shrink the shared display window to the
recommendation. -/
def estimateSampleRate (now : ℚ) (st : State) : State :=
  if adjustFired now st then
    { st with
        est := (observeEst now st.est).1
        windowSec := (observeEst now st.est).1.recommendedWindow
        autoAdjusted := true }
  else
    { st with est := (observeEst now st.est).1 }

/-- The `win` input handler (graph.js lines 123-130): a manual display
window change in `[0.5, 60]` takes effect and disables auto-adjustment. -/
def manualSetWindow (v : ℚ) (st : State) : State :=
  if 1/2 ≤ v ∧ v ≤ 60 then
    { st with windowSec := v, autoAdjusted := true }
  else st

/-- The front-eviction loop of `pushSample`
(`while (arr.length && arr[0].t < cutoff) arr.shift()`, graph.js line 158). -/
def evictOld (cutoff : ℚ) : List Sample → List Sample
  | [] => []
  | s :: rest => if s.t < cutoff then evictOld cutoff rest else s :: rest

/-- Buffer-level `pushSample(nodeId, t, y)` body (graph.js lines 154-161):
append, evict older than `t - windowSec` from the front, then trim the
front to the hard cap `(maxSamplesPerNode || 300) * 2`. -/
def pushSampleArr (windowSec : ℚ) (maxSamplesPerNode : ℕ) (arr : List Sample)
    (t y : ℚ) : List Sample :=
  let arr1 := arr ++ [⟨t, y⟩]
  let arr2 := evictOld (t - windowSec) arr1
  let maxSamples := (if maxSamplesPerNode = 0 then 300 else maxSamplesPerNode) * 2
  if maxSamples < arr2.length then arr2.drop (arr2.length - maxSamples) else arr2

/-- Effect of `pushSample` on the whole 2D state. -/
def pushSample (nodeId : ℕ) (t y : ℚ) (st : State) : State :=
  { st with
      dataByNode := st.dataByNode.set nodeId
        (pushSampleArr st.windowSec st.est.maxSamplesPerNode
          (st.dataByNode.getD nodeId []) t y) }

/-- The 2D `ensureNodeCapacity(n)` (graph.js lines 142-152): no-op unless
`n > nodeCount`; otherwise add a row (blank canvas), an empty buffer and
default visibility for every new index, then set `nodeCount = n`. -/
def ensureNodeCapacity (n : ℕ) (st : State) : State :=
  if n ≤ st.nodeCount then st
  else
    { st with
        nodeCount := n
        dataByNode := st.dataByNode ++ List.replicate (n - st.nodeCount) []
        visibleSet := st.visibleSet ∪ Finset.Ico st.nodeCount n
        canvases := st.canvases ++ List.replicate (n - st.nodeCount) false }

/-- One iteration of the per-payload write loop: push `vals[i]` into
channel `i` when it is a finite number (graph.js lines 201-202). -/
def pushFrameStep (t : ℚ) (vals : List (Option ℚ)) (s : State) (i : ℕ) : State :=
  match vals.getD i none with
  | some y => pushSample i t y s
  | none => s

/-- The per-payload write loop shared by `pushGraphSamples` and
`pushGraphBatch`: for `i < min(nodeCount, vals.length)` push `vals[i]`
when it is finite (graph.js lines 200-203 / 240-243). -/
def pushFrame (t : ℚ) (vals : List (Option ℚ)) (st : State) : State :=
  (List.range (min st.nodeCount vals.length)).foldl (pushFrameStep t vals) st

/-- Payload of `window.pushGraphSamples` (graph.js lines 187-216).
`none` fields model a missing / non-array / non-finite JS value. -/
structure SinglePayload where
  timestamp : Option ℚ
  nodes : Option (List (Option ℚ))
  amps : Option (List (Option ℚ))

/-- Entry point `window.pushGraphSamples(payload)` (graph.js lines 187-216).
`localNow` models `performance.now()/1000 - clock0`, the local clock used
when the payload carries no finite timestamp. -/
def pushGraphSamples (localNow : ℚ) (p : SinglePayload) (st : State) : State :=
  let pr : State × ℚ :=
    match p.timestamp with
    | some ts =>
      match st.t0Payload with
      | none => ({ st with t0Payload := some ts }, ts - ts)
      | some t0 => (st, ts - t0)
    | none => (st, localNow)
  let st2 :=
    match p.nodes with
    | some vals => pushFrame pr.2 vals (ensureNodeCapacity vals.length pr.1)
    | none =>
      match p.amps with
      | some vals => pushFrame pr.2 vals (ensureNodeCapacity vals.length pr.1)
      | none => pr.1
  { st2 with externalActive := true, lastExternalSec := pr.2 }

/-- Payload of `window.pushGraphBatch` (graph.js lines 219-250):
parallel arrays of timestamps and per-frame amplitude vectors. -/
structure BatchPayload where
  ts : List (Option ℚ)
  frames : List (List (Option ℚ))

/-- One iteration of the frame loop of `pushGraphBatch`
(graph.js lines 234-244). -/
def batchFrameStep (localNow : ℚ) (p : BatchPayload) (s : State) (k : ℕ) : State :=
  match p.ts.getD k none with
  | none => s
  | some tAbs =>
    let tRel := match s.t0Payload with
      | some t0 => tAbs - t0
      | none => localNow
    let amps := p.frames.getD k []
    pushFrame tRel amps (ensureNodeCapacity amps.length s)

/-- Estimator stage of `pushGraphBatch` (graph.js lines 225-229): one
`estimateSampleRate` observation on the batch's first timestamp, when the
batch is non-empty and that timestamp is finite. -/
def batchEstStage (p : BatchPayload) (st : State) : State :=
  if 0 < min p.ts.length p.frames.length then
    match p.ts.getD 0 none with
    | some t => estimateSampleRate t st
    | none => st
  else st

/-- Session-origin capture stage of `pushGraphBatch` (graph.js 230-233). -/
def batchT0Stage (p : BatchPayload) (st : State) : State :=
  if st.t0Payload = none ∧ 0 < min p.ts.length p.frames.length then
    match p.ts.getD 0 none with
    | some t => { st with t0Payload := some t }
    | none => st
  else st

/-- Frame loop of `pushGraphBatch` (graph.js lines 234-244). -/
def batchFramesStage (localNow : ℚ) (p : BatchPayload) (st : State) : State :=
  (List.range (min p.ts.length p.frames.length)).foldl (batchFrameStep localNow p) st

/-- Entry point `window.pushGraphBatch(payload)` (graph.js lines 219-250): the three
stages above in order, then the external-activity bookkeeping
(graph.js lines 245-246). -/
def pushGraphBatch (localNow : ℚ) (p : BatchPayload) (st : State) : State :=
  let st3 := batchFramesStage localNow p (batchT0Stage p (batchEstStage p st))
  { st3 with
      externalActive := true
      lastExternalSec := ((st3.dataByNode.getD 0 []).getLast?.map Sample.t).getD
        st3.lastExternalSec }

/-- Function `clearAllData()` (graph.js lines 164-170): empty every buffer and
blank every row's canvas; nothing else changes. -/
def clearAllData (st : State) : State :=
  { st with
      dataByNode := st.dataByNode.map (fun _ => [])
      canvases := st.canvases.map (fun _ => false) }

/-- The modal OK handler (graph.js lines 430-442): the checked subset
becomes the visible set unless it is empty, in which case nothing changes. -/
def applyVisibleSelection (next : Finset ℕ) (st : State) : State :=
  if next = ∅ then st else { st with visibleSet := next }

/-! ## 3D scene module (second IIFE of graph.js) -/

/-- The circle placement used both at startup (graph.js lines 904-907) and
by the 3D `ensureNodeCapacity` (lines 1160-1167): angle `(i/n)·2π`, radius
`max(width, height) = max(0.1, 0.2) = 0.2` halved, and
`mesh.position.set(x, z, y)` with `y = 0`, so the stored triple is
`(cos·0.1, sin·0.1, 0)`. -/
noncomputable def circlePos (i n : ℕ) : ℝ × ℝ × ℝ :=
  let t : ℝ := ((i : ℝ) / (n : ℝ)) * Real.pi * 2
  (Real.cos t * (2/10) * (1/2), Real.sin t * (2/10) * (1/2), 0)

/-- State of the 3D scene module that the claims touch: per-node base
positions, HSL hues (saturation 0.6 and lightness 0.55 are fixed),
waveform parameter arrays, and the latest-amplitude vector.  The
`Float32Array` amplitudes are modelled as exact rationals. -/
structure State3D where
  nodeCount : ℕ
  positions : List (ℝ × ℝ × ℝ)
  hues : List ℚ
  amplitudes : List ℚ
  freqs : List ℚ
  phases : List ℝ
  latestAmplitudes : List ℚ
  hasLiveData : Bool

/-- Initial 3D state (graph.js lines 868, 901-923, 1139-1141, 1152):
`config.json` is absent from the repository, so `cols = 3`, `rows = 5`,
`nodeCount = 15`; nodes sit on the startup circle with hue `i/15`. -/
noncomputable def initState3D : State3D :=
  { nodeCount := 15
    positions := (List.range 15).map (fun i : ℕ => circlePos i 15)
    hues := (List.range 15).map (fun i : ℕ => (i : ℚ) / 15)
    amplitudes := (List.range 15).map (fun i : ℕ => 3/500 + (1/250) * ((i : ℚ) / 15))
    freqs := (List.range 15).map (fun i : ℕ => 1/2 + (1/20) * (i : ℚ))
    phases := (List.range 15).map (fun i : ℕ => ((i : ℝ) / 15) * Real.pi * 2)
    latestAmplitudes := List.replicate 15 0
    hasLiveData := false }

/-- The 3D `ensureNodeCapacity(newCount)` (graph.js lines 1156-1188): no-op
unless `newCount > nodeCount`; otherwise each new index `i` gets a circle
position, hue `i / newCount`, waveform parameters
`0.006 + 0.004·(i/newCount)`, `0.5 + 0.05·i`, `(i/newCount)·2π`, and the
latest-amplitude vector is copied into a zero-padded vector of the new
length.  Existing entries are not touched. -/
noncomputable def ensureNodeCapacity3D (newCount : ℕ) (st : State3D) : State3D :=
  if newCount ≤ st.nodeCount then st
  else
    let idxs := List.range' st.nodeCount (newCount - st.nodeCount)
    { st with
        nodeCount := newCount
        positions := st.positions ++ idxs.map (fun i : ℕ => circlePos i newCount)
        hues := st.hues ++ idxs.map (fun i : ℕ => (i : ℚ) / newCount)
        amplitudes := st.amplitudes ++
          idxs.map (fun i : ℕ => 3/500 + (1/250) * ((i : ℚ) / newCount))
        freqs := st.freqs ++ idxs.map (fun i : ℕ => 1/2 + (1/20) * (i : ℚ))
        phases := st.phases ++ idxs.map (fun i : ℕ => ((i : ℝ) / newCount) * Real.pi * 2)
        latestAmplitudes := st.latestAmplitudes ++
          List.replicate (newCount - st.nodeCount) 0 }

/-- JS `x | 0` on an integral value: conversion to a signed 32-bit
integer, wrapping modulo `2^32`. -/
def toInt32 (x : ℤ) : ℤ := (x + 2 ^ 31) % 2 ^ 32 - 2 ^ 31

/-- One element of the `updateNodes` payload (graph.js line 1195):
`{ id, amplitude }`, with `none` modelling a non-finite amplitude. -/
structure NodeEntry where
  id : ℤ
  amplitude : Option ℚ

/-- Body of the `updateNodes` loop (graph.js lines 1201-1210): compute
`id = item.id | 0` and overwrite `latestAmplitudes[id]` when `id` is in
`[0, nodeCount)` and the amplitude is a finite number. -/
def applyEntry (nodeCount : ℕ) (amps : List ℚ) (item : NodeEntry) : List ℚ :=
  let id := toInt32 item.id
  if 0 ≤ id ∧ id < nodeCount then
    match item.amplitude with
    | some a => amps.set id.toNat a
    | none => amps
  else amps

/-- Entry point `window.updateNodes(payload)` (graph.js lines 1194-1216): fold
`applyEntry` over the payload entries, then raise the live-data flag. -/
def updateNodes (entries : List NodeEntry) (st : State3D) : State3D :=
  { st with
      latestAmplitudes := entries.foldl (applyEntry st.nodeCount) st.latestAmplitudes
      hasLiveData := true }

/-- The sphere case of `getLayoutPositions` (graph.js lines 654-666):
golden-angle spiral, `y` descending from 1 to -1, radius ring
`sqrt(max(0, 1 - y²))`, all scaled by 0.25. -/
noncomputable def sphereLayout (n : ℕ) : List (ℝ × ℝ × ℝ) :=
  (List.range n).map (fun i : ℕ =>
    let y : ℝ := if 1 < n then 1 - ((i : ℝ) / ((n : ℝ) - 1)) * 2 else 0
    let r : ℝ := Real.sqrt (max 0 (1 - y * y))
    let theta : ℝ := (Real.pi * (3 - Real.sqrt 5)) * (i : ℝ)
    (Real.cos theta * r * (1/4), y * (1/4), Real.sin theta * r * (1/4)))

/-! ## Session events (for the temporal claims) -/

/-- External stimuli that can reach the 2D module's shared state during a
session: the two ingestion entry points, a manual display-window edit, the
clear-all button, and a visible-subset selection. -/
inductive Event where
  | single (localNow : ℚ) (p : SinglePayload)
  | batch (localNow : ℚ) (p : BatchPayload)
  | manualWin (v : ℚ)
  | clearAll
  | selectVisible (s : Finset ℕ)

/-- Effect of one event on the 2D state. -/
def stepEvent (st : State) : Event → State
  | .single ln p => pushGraphSamples ln p st
  | .batch ln p => pushGraphBatch ln p st
  | .manualWin v => manualSetWindow v st
  | .clearAll => clearAllData st
  | .selectVisible s => applyVisibleSelection s st

/-- Whether processing this event performs the one-shot display-window
auto-adjustment.  Only a batch can: it runs `estimateSampleRate` on its
first timestamp (graph.js lines 226-229). -/
def firesAt (o : Option ℚ) (st : State) : Prop :=
  match o with
  | some t => adjustFired t st
  | none => False

instance (o : Option ℚ) (st : State) : Decidable (firesAt o st) :=
  match o with
  | some t => inferInstanceAs (Decidable (adjustFired t st))
  | none => inferInstanceAs (Decidable False)

def eventFires (st : State) : Event → Prop
  | .batch _ p =>
    0 < min p.ts.length p.frames.length ∧ firesAt (p.ts.getD 0 none) st
  | _ => False

instance (st : State) (ev : Event) : Decidable (eventFires st ev) := by
  match ev with
  | .batch ln p => exact instDecidableAnd
  | .single ln p | .manualWin v | .clearAll | .selectVisible s =>
    exact instDecidableFalse

/-- Number of auto-adjustments performed while processing an event list. -/
def firedCount : State → List Event → ℕ
  | _, [] => 0
  | st, ev :: evs =>
    (if eventFires st ev then 1 else 0) + firedCount (stepEvent st ev) evs

/-- First payload of the C8 scenario: `{timestamp: 100.0, nodes: [0.01, -0.02]}`. -/
def originPayload1 : SinglePayload :=
  ⟨some 100, some [some (1/100), some (-(1/50))], none⟩

/-- Second payload of the C8 scenario: `{timestamp: 100.1, nodes: [0.02, -0.01]}`. -/
def originPayload2 : SinglePayload :=
  ⟨some (1001/10), some [some (1/50), some (-(1/100))], none⟩

/-- A sequence of `pushSample` calls on one channel's (initially empty)
buffer, with a fixed display window `w` and estimator target `m`. -/
def pushMany (w : ℚ) (m : ℕ) (ps : List (ℚ × ℚ)) : List Sample :=
  ps.foldl (fun arr p => pushSampleArr w m arr p.1 p.2) []

/-- Folding a sequence of `observe()` calls over the estimator core. -/
def observeFold (ts : List ℚ) (e : Estimator) : Estimator :=
  ts.foldl (fun e x => (observeEst x e).1) e

/-- The subsequence of inter-arrival intervals a sequence of `observe()`
timestamps gets past the outlier filter (graph.js lines 40-41): each
interval to the previous timestamp when it lies in the open range
`(0, 10)`; `lastTime` advances on every call, accepted or not. -/
def acceptedList : Option ℚ → List ℚ → List ℚ
  | _, [] => []
  | none, t :: rest => acceptedList (some t) rest
  | some l, t :: rest =>
    (if 0 < t - l ∧ t - l < 10 then [t - l] else []) ++ acceptedList (some t) rest

/-- Modelled from the spec: the word "median" read in the usual
statistical sense - the middle element of the sorted list for odd length,
the mean of the two middle elements for even length.  Used only to
compare the spec's wording against the code's `medianOf`, which always
takes the single element at index `length / 2`. -/
def specMedian (l : List ℚ) : ℚ :=
  let sorted := l.insertionSort (· ≤ ·)
  if sorted.length % 2 = 1 then sorted.getD (sorted.length / 2) 0
  else (sorted.getD (sorted.length / 2 - 1) 0 + sorted.getD (sorted.length / 2) 0) / 2

/-- Twelve timestamps whose eleven inter-arrival intervals alternate
`0.099` and `0.101` seconds, starting with `0.099` (the C3 scenario). -/
def jitterTimestamps : List ℚ :=
  [0, 99/1000, 2/10, 299/1000, 4/10, 499/1000, 6/10, 699/1000, 8/10, 899/1000,
    1, 1099/1000]

/-- Eleven timestamps whose ten accepted intervals are five times `0.1`
followed by five times `0.2` (used to compare the two median readings). -/
def bimodalTimestamps : List ℚ :=
  [0, 1/10, 2/10, 3/10, 4/10, 1/2, 7/10, 9/10, 11/10, 13/10, 3/2]

/-- The 2D state after a session that starts with display window `w0` and
feeds one `observe()` (estimator) call per batch timestamp in `ts`. -/
def sessionAfter (w0 : ℚ) (ts : List ℚ) : State :=
  ts.foldl (fun s x => estimateSampleRate x s) (initState w0)

/-! ## Basic frame lemmas -/

theorem foldl_preserve {α β γ : Type _} (proj : β → γ) (f : β → α → β)
    (h : ∀ b a, proj (f b a) = proj b) :
    ∀ (l : List α) (b : β), proj (l.foldl f b) = proj b
  | [], _ => rfl
  | a :: l, b => by
    rw [List.foldl_cons, foldl_preserve proj f h l, h]

@[simp] theorem pushSample_windowSec (i : ℕ) (t y : ℚ) (st : State) :
    (pushSample i t y st).windowSec = st.windowSec := rfl

@[simp] theorem pushSample_est (i : ℕ) (t y : ℚ) (st : State) :
    (pushSample i t y st).est = st.est := rfl

@[simp] theorem pushSample_autoAdjusted (i : ℕ) (t y : ℚ) (st : State) :
    (pushSample i t y st).autoAdjusted = st.autoAdjusted := rfl

@[simp] theorem pushSample_nodeCount (i : ℕ) (t y : ℚ) (st : State) :
    (pushSample i t y st).nodeCount = st.nodeCount := rfl

@[simp] theorem pushSample_visibleSet (i : ℕ) (t y : ℚ) (st : State) :
    (pushSample i t y st).visibleSet = st.visibleSet := rfl

@[simp] theorem pushSample_t0Payload (i : ℕ) (t y : ℚ) (st : State) :
    (pushSample i t y st).t0Payload = st.t0Payload := rfl

theorem pushFrame_windowSec (t : ℚ) (vals : List (Option ℚ)) (st : State) :
    (pushFrame t vals st).windowSec = st.windowSec := by
  unfold pushFrame
  apply foldl_preserve State.windowSec
  intro b a
  unfold pushFrameStep
  cases vals.getD a none <;> rfl

theorem pushFrame_est (t : ℚ) (vals : List (Option ℚ)) (st : State) :
    (pushFrame t vals st).est = st.est := by
  unfold pushFrame
  apply foldl_preserve State.est
  intro b a
  unfold pushFrameStep
  cases vals.getD a none <;> rfl

theorem pushFrame_autoAdjusted (t : ℚ) (vals : List (Option ℚ)) (st : State) :
    (pushFrame t vals st).autoAdjusted = st.autoAdjusted := by
  unfold pushFrame
  apply foldl_preserve State.autoAdjusted
  intro b a
  unfold pushFrameStep
  cases vals.getD a none <;> rfl

theorem pushFrame_nodeCount (t : ℚ) (vals : List (Option ℚ)) (st : State) :
    (pushFrame t vals st).nodeCount = st.nodeCount := by
  unfold pushFrame
  apply foldl_preserve State.nodeCount
  intro b a
  unfold pushFrameStep
  cases vals.getD a none <;> rfl

theorem pushFrame_t0Payload (t : ℚ) (vals : List (Option ℚ)) (st : State) :
    (pushFrame t vals st).t0Payload = st.t0Payload := by
  unfold pushFrame
  apply foldl_preserve State.t0Payload
  intro b a
  unfold pushFrameStep
  cases vals.getD a none <;> rfl

theorem getD_map_const {α β : Type _} (c : β) (l : List α) (i : ℕ) :
    (l.map (fun _ => c)).getD i c = c := by
  induction l generalizing i with
  | nil => rfl
  | cons a l ih =>
    cases i with
    | zero => rfl
    | succ j => simp [ih j]

/-! ## Claim C7: clear-all -/

/-- Claim C7: `clearAllData` empties every channel's buffer and blanks
every row's canvas while leaving the channel count, the visible-channel
set and the row structure unchanged (it never touches the 3D layout
state, which lives in `State3D`); in particular, after selecting exactly
one visible channel and clearing, exactly that channel is visible and its
buffer is empty. -/
theorem clearAllData_frame (st : State) (c : ℕ) :
    (clearAllData st).nodeCount = st.nodeCount ∧
    (clearAllData st).visibleSet = st.visibleSet ∧
    (clearAllData st).canvases.length = st.canvases.length ∧
    (∀ i, (clearAllData st).dataByNode.getD i [] = []) ∧
    (∀ b ∈ (clearAllData st).canvases, b = false) ∧
    (clearAllData (applyVisibleSelection {c} st)).visibleSet = {c} ∧
    ∀ i, (clearAllData (applyVisibleSelection {c} st)).dataByNode.getD i [] = [] := by
  refine ⟨rfl, rfl, by simp [clearAllData], ?_, ?_, ?_, ?_⟩
  · intro i
    exact getD_map_const [] st.dataByNode i
  · intro b hb
    simp only [clearAllData, List.mem_map] at hb
    obtain ⟨_, _, h⟩ := hb
    exact h.symm
  · simp [clearAllData, applyVisibleSelection, Finset.singleton_ne_empty]
  · intro i
    exact getD_map_const [] _ i

/-! ## Claim C8: session clock origin -/

/-- Claim C8: the first finite source timestamp becomes the session's
reference zero and later samples are stored relative to it: after the two
scenario payloads, channel 0's buffer is `[{t:0, y:0.01}, {t:0.1, y:0.02}]`
and the channel count is at least 2.  `w0` is the initial display window
(its HTML default is unknown; any value of at least 0.1s, in particular
anything in the documented `[0.5, 60]` range, retains both samples), and
`ln1`, `ln2` are the local clock readings, unused because both payloads
carry finite timestamps. -/
theorem pushSingle_origin (w0 ln1 ln2 : ℚ) (hw : 1/10 ≤ w0) :
    (pushGraphSamples ln2 originPayload2
        (pushGraphSamples ln1 originPayload1 (initState w0))).dataByNode.getD 0 []
      = [⟨0, 1/100⟩, ⟨1/10, 1/50⟩] ∧
    (pushGraphSamples ln2 originPayload2
        (pushGraphSamples ln1 originPayload1 (initState w0))).t0Payload = some 100 ∧
    2 ≤ (pushGraphSamples ln2 originPayload2
        (pushGraphSamples ln1 originPayload1 (initState w0))).nodeCount := by
  have h1 : ¬ ((0 : ℚ) < 0 - w0) := by linarith
  have h2 : ¬ ((0 : ℚ) < 1001/10 - 100 - w0) := by linarith
  have h3 : ¬ ((1001:ℚ)/10 - 100 < 1001/10 - 100 - w0) := by linarith
  have h4 : ¬ (w0 < 0) := by linarith
  have h5 : ¬ (w0 < 1/10) := by linarith
  have h6 : ¬ ((0:ℚ) < 1/10 - w0) := by linarith
  have h7 : ¬ ((1:ℚ)/10 < 1/10 - w0) := by linarith
  norm_num [pushGraphSamples, originPayload1, originPayload2, initState,
    initEstimator, ensureNodeCapacity, pushFrame, pushFrameStep, pushSample,
    pushSampleArr, evictOld, List.range_succ, List.replicate,
    h1, h2, h3, h4, h5, h6, h7]

/-- Witness for C8 at the concrete initial window 5s. -/
theorem pushSingle_origin_witness :
    (1:ℚ)/10 ≤ 5 ∧
    (pushGraphSamples 0 originPayload2
        (pushGraphSamples 0 originPayload1 (initState 5))).dataByNode.getD 0 []
      = [⟨0, 1/100⟩, ⟨1/10, 1/50⟩] :=
  ⟨by norm_num, (pushSingle_origin 5 0 0 (by norm_num)).1⟩

/-! ## Claim C1: buffer ordering and time-window eviction -/

theorem evictOld_suffix (c : ℚ) : ∀ l : List Sample, evictOld c l <:+ l
  | [] => List.suffix_refl []
  | s :: rest => by
    unfold evictOld
    by_cases h : s.t < c
    · rw [if_pos h]
      exact (evictOld_suffix c rest).trans (List.suffix_cons s rest)
    · rw [if_neg h]

theorem evictOld_ge (c : ℚ) :
    ∀ l : List Sample, l.Sorted (fun a b => a.t ≤ b.t) →
      ∀ s ∈ evictOld c l, c ≤ s.t
  | [], _, s, hs => by simp [evictOld] at hs
  | a :: rest, hl, s, hs => by
    rw [List.sorted_cons] at hl
    unfold evictOld at hs
    by_cases h : a.t < c
    · rw [if_pos h] at hs
      exact evictOld_ge c rest hl.2 s hs
    · rw [if_neg h] at hs
      rcases List.mem_cons.mp hs with rfl | hmem
      · exact le_of_not_lt h
      · exact le_trans (le_of_not_lt h) (hl.1 s hmem)

/-- One `pushSample` step: starting from a sorted buffer whose timestamps
are all at most the pushed `t`, the result is sorted, bounded by `t`, and
entirely within the window `[t - w, t]` (for `0 ≤ w`). -/
theorem pushSampleArr_step (w : ℚ) (m : ℕ) (arr : List Sample) (t y : ℚ)
    (hs : arr.Sorted (fun a b => a.t ≤ b.t))
    (hb : ∀ s ∈ arr, s.t ≤ t) :
    (pushSampleArr w m arr t y).Sorted (fun a b => a.t ≤ b.t) ∧
    (∀ s ∈ pushSampleArr w m arr t y, s.t ≤ t) ∧
    (∀ s ∈ pushSampleArr w m arr t y, t - w ≤ s.t) := by
  have hs1 : (arr ++ [(⟨t, y⟩ : Sample)]).Sorted (fun a b => a.t ≤ b.t) := by
    rw [List.Sorted, List.pairwise_append]
    refine ⟨hs, List.pairwise_singleton _ _, ?_⟩
    intro a ha b hbmem
    rw [List.mem_singleton] at hbmem
    subst hbmem
    exact hb a ha
  have hb1 : ∀ s ∈ arr ++ [(⟨t, y⟩ : Sample)], s.t ≤ t := by
    intro s hsm
    rcases List.mem_append.mp hsm with h | h
    · exact hb s h
    · rw [List.mem_singleton] at h
      subst h
      exact le_refl t
  have hsuff2 : evictOld (t - w) (arr ++ [(⟨t, y⟩ : Sample)]) <:+ arr ++ [(⟨t, y⟩ : Sample)] :=
    evictOld_suffix _ _
  have hs2 : (evictOld (t - w) (arr ++ [(⟨t, y⟩ : Sample)])).Sorted (fun a b => a.t ≤ b.t) :=
    hs1.sublist hsuff2.sublist
  have hge2 : ∀ s ∈ evictOld (t - w) (arr ++ [(⟨t, y⟩ : Sample)]), t - w ≤ s.t :=
    evictOld_ge _ _ hs1
  have hb2 : ∀ s ∈ evictOld (t - w) (arr ++ [(⟨t, y⟩ : Sample)]), s.t ≤ t :=
    fun s hsm => hb1 s (hsuff2.sublist.subset hsm)
  have hres : pushSampleArr w m arr t y <:+ evictOld (t - w) (arr ++ [(⟨t, y⟩ : Sample)]) := by
    simp only [pushSampleArr]
    split <;> split
    all_goals first
      | exact List.drop_suffix _ _
      | exact List.suffix_refl _
  exact ⟨hs2.sublist hres.sublist,
    fun s hsm => hb2 s (hres.sublist.subset hsm),
    fun s hsm => hge2 s (hres.sublist.subset hsm)⟩

theorem pushMany_aux (w : ℚ) (m : ℕ) :
    ∀ (ps : List (ℚ × ℚ)) (arr : List Sample) (bound : ℚ),
      arr.Sorted (fun a b => a.t ≤ b.t) →
      (∀ s ∈ arr, s.t ≤ bound) →
      (∀ s ∈ arr, ∀ s2 ∈ arr, s2.t - w ≤ s.t) →
      List.Chain (fun a b => a ≤ b) bound (ps.map Prod.fst) →
      (ps.foldl (fun a p => pushSampleArr w m a p.1 p.2) arr).Sorted
          (fun a b => a.t ≤ b.t) ∧
        (∀ s ∈ ps.foldl (fun a p => pushSampleArr w m a p.1 p.2) arr,
          ∀ s2 ∈ ps.foldl (fun a p => pushSampleArr w m a p.1 p.2) arr,
            s2.t - w ≤ s.t)
  | [], arr, bound, hs, _, hwin, _ => ⟨hs, hwin⟩
  | (t, y) :: ps, arr, bound, hs, hb, _, hchain => by
    rw [List.map_cons, List.chain_cons] at hchain
    have hb' : ∀ s ∈ arr, s.t ≤ t := fun s hsm => le_trans (hb s hsm) hchain.1
    have hstep := pushSampleArr_step w m arr t y hs hb'
    have hwin' : ∀ s ∈ pushSampleArr w m arr t y,
        ∀ s2 ∈ pushSampleArr w m arr t y, s2.t - w ≤ s.t := by
      intro s hsm s2 hs2m
      calc s2.t - w ≤ t - w := by linarith [hstep.2.1 s2 hs2m]
        _ ≤ s.t := hstep.2.2 s hsm
    exact pushMany_aux w m ps (pushSampleArr w m arr t y) t
      hstep.1 hstep.2.1 hwin' hchain.2

/-- Counterexample to claim C1 as stated: `pushSample` accepts
out-of-order timestamps (the spec itself notes monotonicity is only a
producer convention), and pushing `t = 100` then `t = 0` with a 5s
display window leaves the buffer `[{t:100}, {t:0}]`, which is not sorted
and retains a sample older than `latest_t - displayWindow`. -/
theorem pushSample_unsorted_cex :
    pushMany 5 300 [(100, 0), (0, 0)] = [⟨100, 0⟩, ⟨0, 0⟩] ∧
    ¬ (pushMany 5 300 [(100, 0), (0, 0)]).Sorted (fun a b => a.t ≤ b.t) ∧
    ∃ s ∈ pushMany 5 300 [(100, 0), (0, 0)],
      ∃ latest ∈ pushMany 5 300 [(100, 0), (0, 0)], s.t < latest.t - 5 := by
  have he : pushMany 5 300 [(100, 0), (0, 0)] = [⟨100, 0⟩, ⟨0, 0⟩] := by
    norm_num [pushMany, pushSampleArr, evictOld]
  refine ⟨he, ?_, ?_⟩
  · rw [he]
    intro hcon
    rw [List.sorted_cons] at hcon
    have h100 := hcon.1 ⟨0, 0⟩ (by simp)
    norm_num at h100
  · rw [he]
    exact ⟨⟨0, 0⟩, by simp, ⟨100, 0⟩, by simp, by norm_num⟩

/-- Claim C1 (amended): for every channel and every sequence of
`pushSample(channel, t, y)` calls whose timestamps are non-decreasing
(the producer convention the code relies on), the buffer stays sorted by
`t` and, after each push, every retained sample `s` satisfies
`s.t >= latest_t - displayWindow`.  As stated, with arbitrary (possibly
out-of-order) timestamp sequences, the claim is false
(`pushSample_unsorted_cex`). -/
theorem pushSample_window_invariant (w : ℚ) (m : ℕ) (ps : List (ℚ × ℚ))
    (hmono : ps.Chain' (fun p q => p.1 ≤ q.1)) :
    (pushMany w m ps).Sorted (fun a b => a.t ≤ b.t) ∧
    ∀ s ∈ pushMany w m ps, ∀ latest ∈ pushMany w m ps, latest.t - w ≤ s.t := by
  cases ps with
  | nil => exact ⟨List.sorted_nil, by simp [pushMany]⟩
  | cons p ps =>
    obtain ⟨t, y⟩ := p
    have hc : List.Chain (fun p q : ℚ × ℚ => p.1 ≤ q.1) (t, y) ps := hmono
    have hchain : List.Chain (fun a b : ℚ => a ≤ b) t (((t, y) :: ps).map Prod.fst) := by
      rw [List.map_cons, List.chain_cons]
      exact ⟨le_refl t, List.chain_map_of_chain Prod.fst (fun p q h => h) hc⟩
    exact pushMany_aux w m ((t, y) :: ps) [] t List.sorted_nil
      (by simp) (by simp) hchain

/-- Witness for the amended C1 at a concrete monotone push sequence. -/
theorem pushSample_window_invariant_witness :
    ([((0:ℚ), (1:ℚ)), (1, 2), (10, 3)].Chain' (fun p q => p.1 ≤ q.1)) ∧
    (pushMany 5 300 [(0, 1), (1, 2), (10, 3)]).Sorted (fun a b => a.t ≤ b.t) := by
  have hch : ([((0:ℚ), (1:ℚ)), (1, 2), (10, 3)].Chain' (fun p q => p.1 ≤ q.1)) := by
    norm_num [List.chain'_cons, List.chain'_singleton]
  exact ⟨hch, (pushSample_window_invariant 5 300 _ hch).1⟩

/-! ## Claim C10: updateNodes -/

/-- Counterexample to claim C10 as stated: `updateNodes` converts each
entry id with `id | 0`, which wraps modulo `2^32`; the id `2^32` is
outside `[0, channelCount)` yet its entry is not ignored: it overwrites
`latestAmplitudes[0]`. -/
theorem updateNodes_wrap_cex :
    ¬ ((2 ^ 32 : ℤ) < (initState3D.nodeCount : ℤ)) ∧
    initState3D.latestAmplitudes.getD 0 0 = 0 ∧
    (updateNodes [⟨2 ^ 32, some 7⟩] initState3D).latestAmplitudes.getD 0 0 = 7 := by
  refine ⟨by norm_num [initState3D], by norm_num [initState3D, List.replicate], ?_⟩
  have hid : toInt32 4294967296 = 0 := by norm_num [toInt32]
  norm_num [updateNodes, applyEntry, hid, initState3D, List.replicate]

/-- Claim C10 (amended): for every `updateNodes` payload, the call never
changes `nodeCount` nor the length of the latest-amplitude vector, and
the final vector is the left fold of the per-entry update; a single entry
is ignored when its id after 32-bit integer conversion (`id | 0`, which
wraps modulo `2^32` - the amendment the counterexample forces) is outside
`[0, nodeCount)` or its amplitude is non-finite, and otherwise overwrites
exactly the slot at the converted id. -/
theorem updateNodes_spec :
    (∀ (st : State3D) (entries : List NodeEntry),
      (updateNodes entries st).nodeCount = st.nodeCount ∧
      (updateNodes entries st).latestAmplitudes.length
        = st.latestAmplitudes.length ∧
      (updateNodes entries st).latestAmplitudes
        = entries.foldl (applyEntry st.nodeCount) st.latestAmplitudes) ∧
    (∀ (n : ℕ) (amps : List ℚ) (e : NodeEntry),
      toInt32 e.id < 0 ∨ (n : ℤ) ≤ toInt32 e.id ∨ e.amplitude = none →
      applyEntry n amps e = amps) ∧
    (∀ (n : ℕ) (amps : List ℚ) (e : NodeEntry) (a : ℚ),
      e.amplitude = some a → 0 ≤ toInt32 e.id → toInt32 e.id < (n : ℤ) →
      applyEntry n amps e = amps.set (toInt32 e.id).toNat a) := by
  refine ⟨?_, ?_, ?_⟩
  · intro st entries
    refine ⟨rfl, ?_, rfl⟩
    show (entries.foldl (applyEntry st.nodeCount) st.latestAmplitudes).length
      = st.latestAmplitudes.length
    apply foldl_preserve List.length
    intro amps e
    rcases ha : e.amplitude with _ | a <;>
      simp only [applyEntry, ha] <;> split_ifs <;> simp
  · intro n amps e h
    rcases ha : e.amplitude with _ | a
    · simp only [applyEntry, ha]
      split_ifs <;> rfl
    · rcases h with h | h | h
      · simp only [applyEntry, ha]
        rw [if_neg]
        intro hcon
        exact absurd hcon.1 (not_le.mpr h)
      · simp only [applyEntry, ha]
        rw [if_neg]
        intro hcon
        exact absurd hcon.2 (not_lt.mpr h)
      · rw [ha] at h
        exact absurd h (by simp)
  · intro n amps e a ha h0 hn
    simp only [applyEntry, ha]
    rw [if_pos ⟨h0, hn⟩]

/-- Witness for the amended C10: the entry `{id: -1, amplitude: 3}` is
ignored on the initial 3D state. -/
theorem updateNodes_spec_witness :
    toInt32 (-1) < 0 ∧
    applyEntry 15 (List.replicate 15 0) ⟨-1, some 3⟩ = List.replicate 15 0 := by
  have h : toInt32 (-1) < 0 := by norm_num [toInt32]
  exact ⟨h, updateNodes_spec.2.1 15 (List.replicate 15 0) ⟨-1, some 3⟩ (Or.inl h)⟩

/-! ## Claim C5: ensureCapacity -/

theorem getD_map_range' {α : Type _} (f : ℕ → α) (d : α) :
    ∀ (len s i : ℕ), i < len → ((List.range' s len).map f).getD i d = f (s + i)
  | 0, _, i, h => absurd h (Nat.not_lt_zero i)
  | len + 1, s, 0, _ => by simp [List.range']
  | len + 1, s, i + 1, h => by
    have ih := getD_map_range' f d len (s + 1) i (Nat.lt_of_succ_lt_succ h)
    simp only [List.range', List.map_cons, List.getD_cons_succ]
    rw [ih]
    congr 1
    omega

theorem getD_replicate_of_lt {α : Type _} (c d : α) :
    ∀ (k i : ℕ), i < k → (List.replicate k c).getD i d = c
  | 0, i, h => absurd h (Nat.not_lt_zero i)
  | _ + 1, 0, _ => rfl
  | k + 1, i + 1, h => by
    simp only [List.replicate, List.getD_cons_succ]
    exact getD_replicate_of_lt c d k i (Nat.lt_of_succ_lt_succ h)

/-- Counterexample to claim C5 as stated: growing the 3D node set from 15
to 16 does not recompute the colors of previously existing channels for
the new total count.  Channel 1 keeps its original hue `1/15`; a re-hue
for the new count would have made it `1/16`. -/
theorem ensureCapacity_recolor_cex :
    (ensureNodeCapacity3D 16 initState3D).hues.getD 1 0 = 1/15 ∧
    ((1 : ℚ)/15 ≠ 1/16) := by
  constructor
  · have hkey : (ensureNodeCapacity3D 16 initState3D).hues
        = initState3D.hues ++ (List.range' 15 1).map (fun i : ℕ => (i : ℚ) / 16) := by
      norm_num [ensureNodeCapacity3D, initState3D]
    rw [hkey, List.getD_append]
    · norm_num [initState3D, List.range_succ]
    · norm_num [initState3D]
  · norm_num

/-- Claim C5 (amended): `ensureCapacity(n)` is a no-op for
`n ≤ channelCount` (both in the 2D module and in the 3D module);
otherwise every new index in `[channelCount, n)` gets an empty buffer and
default visibility (2D), a procedural circle position, a deterministic
color hue `i/n` derived from the index and the new total count, default
waveform parameters and a zero latest amplitude (3D) - while the entries
of previously existing channels, including their colors, are left exactly
as they were (the code does not re-hue the full set, contrary to the
claim; see the counterexample). -/
theorem ensureCapacity_spec :
    (∀ (n : ℕ) (st : State), n ≤ st.nodeCount → ensureNodeCapacity n st = st) ∧
    (∀ (n : ℕ) (st : State3D), n ≤ st.nodeCount → ensureNodeCapacity3D n st = st) ∧
    (∀ (n : ℕ) (st : State), st.nodeCount < n →
      st.dataByNode.length = st.nodeCount → st.canvases.length = st.nodeCount →
      (ensureNodeCapacity n st).nodeCount = n ∧
      (ensureNodeCapacity n st).dataByNode.length = n ∧
      (∀ i, st.nodeCount ≤ i → i < n →
        (ensureNodeCapacity n st).dataByNode.getD i [] = [] ∧
        i ∈ (ensureNodeCapacity n st).visibleSet ∧
        (ensureNodeCapacity n st).canvases.getD i true = false) ∧
      (∀ i, i < st.nodeCount →
        (ensureNodeCapacity n st).dataByNode.getD i [] = st.dataByNode.getD i [] ∧
        ((i ∈ (ensureNodeCapacity n st).visibleSet) ↔ i ∈ st.visibleSet))) ∧
    (∀ (n : ℕ) (st : State3D), st.nodeCount < n →
      st.hues.length = st.nodeCount → st.positions.length = st.nodeCount →
      st.amplitudes.length = st.nodeCount → st.freqs.length = st.nodeCount →
      st.phases.length = st.nodeCount → st.latestAmplitudes.length = st.nodeCount →
      (ensureNodeCapacity3D n st).nodeCount = n ∧
      (ensureNodeCapacity3D n st).latestAmplitudes.length = n ∧
      (∀ i, st.nodeCount ≤ i → i < n →
        (ensureNodeCapacity3D n st).hues.getD i 0 = (i : ℚ) / (n : ℚ) ∧
        (ensureNodeCapacity3D n st).positions.getD i (0, 0, 0) = circlePos i n ∧
        (ensureNodeCapacity3D n st).amplitudes.getD i 0
          = 3/500 + (1/250) * ((i : ℚ) / (n : ℚ)) ∧
        (ensureNodeCapacity3D n st).freqs.getD i 0 = 1/2 + (1/20) * (i : ℚ) ∧
        (ensureNodeCapacity3D n st).phases.getD i 0 = ((i : ℝ) / (n : ℝ)) * Real.pi * 2 ∧
        (ensureNodeCapacity3D n st).latestAmplitudes.getD i 0 = 0) ∧
      (∀ i, i < st.nodeCount →
        (ensureNodeCapacity3D n st).hues.getD i 0 = st.hues.getD i 0 ∧
        (ensureNodeCapacity3D n st).positions.getD i (0, 0, 0)
          = st.positions.getD i (0, 0, 0) ∧
        (ensureNodeCapacity3D n st).latestAmplitudes.getD i 0
          = st.latestAmplitudes.getD i 0)) := by
  refine ⟨?_, ?_, ?_, ?_⟩
  · intro n st h
    simp [ensureNodeCapacity, h]
  · intro n st h
    simp [ensureNodeCapacity3D, h]
  · intro n st h hd hc
    have h2 : ¬ n ≤ st.nodeCount := not_le.mpr h
    simp only [ensureNodeCapacity, if_neg h2]
    refine ⟨by trivial, ?_, ?_, ?_⟩
    · simp only [List.length_append, List.length_replicate, hd]
      omega
    · intro i hlo hhi
      refine ⟨?_, ?_, ?_⟩
      · rw [List.getD_append_right _ _ _ _ (by omega : st.dataByNode.length ≤ i), hd]
        exact getD_replicate_of_lt _ _ _ _ (by omega)
      · simp only [Finset.mem_union, Finset.mem_Ico]
        exact Or.inr ⟨hlo, hhi⟩
      · rw [List.getD_append_right _ _ _ _ (by omega : st.canvases.length ≤ i), hc]
        exact getD_replicate_of_lt _ _ _ _ (by omega)
    · intro i hi
      refine ⟨List.getD_append _ _ _ _ (by omega), ?_⟩
      simp only [Finset.mem_union, Finset.mem_Ico]
      constructor
      · rintro (hv | ⟨hge, _⟩)
        · exact hv
        · omega
      · exact Or.inl
  · intro n st h h1 h2 h3 h4 h5 h6
    have hn : ¬ n ≤ st.nodeCount := not_le.mpr h
    simp only [ensureNodeCapacity3D, if_neg hn]
    refine ⟨by trivial, ?_, ?_, ?_⟩
    · simp only [List.length_append, List.length_replicate, h6]
      omega
    · intro i hlo hhi
      have hsub : st.nodeCount + (i - st.nodeCount) = i := by omega
      have hlt : i - st.nodeCount < n - st.nodeCount := by omega
      refine ⟨?_, ?_, ?_, ?_, ?_, ?_⟩
      · rw [List.getD_append_right _ _ _ _ (by omega : st.hues.length ≤ i), h1,
          getD_map_range' _ _ _ _ _ hlt, hsub]
      · rw [List.getD_append_right _ _ _ _ (by omega : st.positions.length ≤ i), h2,
          getD_map_range' _ _ _ _ _ hlt, hsub]
      · rw [List.getD_append_right _ _ _ _ (by omega : st.amplitudes.length ≤ i), h3,
          getD_map_range' _ _ _ _ _ hlt, hsub]
      · rw [List.getD_append_right _ _ _ _ (by omega : st.freqs.length ≤ i), h4,
          getD_map_range' _ _ _ _ _ hlt, hsub]
      · rw [List.getD_append_right _ _ _ _ (by omega : st.phases.length ≤ i), h5,
          getD_map_range' _ _ _ _ _ hlt, hsub]
      · rw [List.getD_append_right _ _ _ _ (by omega : st.latestAmplitudes.length ≤ i), h6]
        exact getD_replicate_of_lt _ _ _ _ (by omega)
    · intro i hi
      exact ⟨List.getD_append _ _ _ _ (by omega), List.getD_append _ _ _ _ (by omega),
        List.getD_append _ _ _ _ (by omega)⟩

/-- Witness for the amended C5: growing 15 to 16 channels from the
initial states sets the count to 16 and gives the new channel 15 the hue
`15/16` derived from the new total count. -/
theorem ensureCapacity_spec_witness :
    (initState 5).nodeCount < 16 ∧
    (ensureNodeCapacity 16 (initState 5)).nodeCount = 16 ∧
    (ensureNodeCapacity3D 16 initState3D).hues.getD 15 0 = 15/16 := by
  refine ⟨by norm_num [initState], ?_, ?_⟩
  · exact (ensureCapacity_spec.2.2.1 16 (initState 5) (by norm_num [initState])
      (by norm_num [initState]) (by norm_num [initState])).1
  · have hh := ((ensureCapacity_spec.2.2.2 16 initState3D
      (by norm_num [initState3D])
      (by norm_num [initState3D]) (by norm_num [initState3D])
      (by norm_num [initState3D]) (by norm_num [initState3D])
      (by norm_num [initState3D]) (by norm_num [initState3D])).2.2.1 15
      (by norm_num [initState3D]) (by norm_num)).1
    rw [hh]
    norm_num

/-! ## Claim C9: sphere layout -/

/-- Claim C9: the sphere layout for 50 channels yields exactly 50
positions, pairwise distinct (their `y` components strictly decrease with
the index), and each at distance exactly the configured radius `0.25`
from the origin - hence within it. -/
theorem sphereLayout_distinct_bounded :
    (sphereLayout 50).length = 50 ∧
    (sphereLayout 50).Pairwise (· ≠ ·) ∧
    ∀ p ∈ sphereLayout 50, p.1 ^ 2 + p.2.1 ^ 2 + p.2.2 ^ 2 ≤ ((1:ℝ)/4) ^ 2 := by
  refine ⟨by simp [sphereLayout], ?_, ?_⟩
  · rw [sphereLayout, List.pairwise_map]
    refine (List.pairwise_lt_range 50).imp ?_
    intro i j hij hcon
    have h2 := congrArg (fun q : ℝ × ℝ × ℝ => q.2.1) hcon
    dsimp only at h2
    norm_num at h2
    have hrr : (i : ℝ) = (j : ℝ) := by linarith
    exact absurd (Nat.cast_injective hrr) hij.ne
  · intro p hp
    rw [sphereLayout, List.mem_map] at hp
    obtain ⟨i, hi, rfl⟩ := hp
    rw [List.mem_range] at hi
    dsimp only
    rw [if_pos (by norm_num : (1:ℕ) < 50)]
    have h49 : (((50:ℕ):ℝ) - 1) = 49 := by norm_num
    rw [h49]
    have hi49 : (i : ℝ) ≤ 49 := by
      have : i ≤ 49 := Nat.lt_succ_iff.mp hi
      exact_mod_cast this
    have hi0 : (0:ℝ) ≤ (i : ℝ) := Nat.cast_nonneg i
    set yv : ℝ := 1 - (i : ℝ) / 49 * 2 with hyv
    have hfrac0 : (0:ℝ) ≤ (i : ℝ) / 49 := by positivity
    have hfrac1 : (i : ℝ) / 49 ≤ 1 := by
      rw [div_le_one (by norm_num : (0:ℝ) < 49)]
      exact hi49
    have hyb1 : -1 ≤ yv := by rw [hyv]; linarith
    have hyb2 : yv ≤ 1 := by rw [hyv]; linarith
    have h1y : 0 ≤ 1 - yv * yv := by nlinarith
    have hmax : max 0 (1 - yv * yv) = 1 - yv * yv := max_eq_right h1y
    have hr2 : Real.sqrt (max 0 (1 - yv * yv)) ^ 2 = 1 - yv * yv := by
      rw [hmax]
      exact Real.sq_sqrt h1y
    set th : ℝ := Real.pi * (3 - Real.sqrt 5) * (i : ℝ) with hth
    have hcs : Real.cos th ^ 2 + Real.sin th ^ 2 = 1 := Real.cos_sq_add_sin_sq th
    set rv : ℝ := Real.sqrt (max 0 (1 - yv * yv)) with hrv
    have hexp : (Real.cos th * rv * (1/4)) ^ 2 + (yv * (1/4)) ^ 2 +
        (Real.sin th * rv * (1/4)) ^ 2
        = (Real.cos th ^ 2 + Real.sin th ^ 2) * rv ^ 2 * (1/16) + yv ^ 2 * (1/16) := by
      ring
    rw [hexp, hcs, one_mul, hrv, hr2]
    nlinarith [sq_nonneg yv]

/-! ## Estimator lemmas (for claims C2, C3, C4) -/

theorem estimateSampleRate_est (t : ℚ) (st : State) :
    (estimateSampleRate t st).est = (observeEst t st.est).1 := by
  unfold estimateSampleRate
  split <;> rfl

theorem observeFold_cons (t : ℚ) (ts : List ℚ) (e : Estimator) :
    observeFold (t :: ts) e = observeFold ts (observeEst t e).1 := rfl

theorem foldl_estimateSampleRate_est :
    ∀ (ts : List ℚ) (st : State),
      (ts.foldl (fun s x => estimateSampleRate x s) st).est = observeFold ts st.est
  | [], _ => rfl
  | t :: ts, st => by
    rw [List.foldl_cons, foldl_estimateSampleRate_est ts, estimateSampleRate_est,
      observeFold_cons]

theorem sessionAfter_est (w0 : ℚ) (ts : List ℚ) :
    (sessionAfter w0 ts).est = observeFold ts initEstimator := by
  unfold sessionAfter
  rw [foldl_estimateSampleRate_est]
  rfl

theorem observeEst_maxSamples (t : ℚ) (e : Estimator) :
    (observeEst t e).1.maxSamplesPerNode = e.maxSamplesPerNode := by
  unfold observeEst
  split
  · rfl
  · dsimp only
    split
    · split
      · split <;> rfl
      · rfl
    · rfl

theorem observeFold_maxSamples (ts : List ℚ) (e : Estimator) :
    (observeFold ts e).maxSamplesPerNode = e.maxSamplesPerNode := by
  unfold observeFold
  apply foldl_preserve Estimator.maxSamplesPerNode
  intro b a
  exact observeEst_maxSamples a b

theorem medianOf_pos (l : List ℚ) (hne : l ≠ []) (hpos : ∀ x ∈ l, 0 < x) :
    0 < medianOf l := by
  unfold medianOf
  have hperm := List.perm_insertionSort (· ≤ ·) l
  have hlen : (l.insertionSort (· ≤ ·)).length = l.length := hperm.length_eq
  have hlt : (l.insertionSort (· ≤ ·)).length / 2 < (l.insertionSort (· ≤ ·)).length := by
    rw [hlen]
    exact Nat.div_lt_self (List.length_pos.mpr hne) (by norm_num)
  rw [List.getD_eq_getElem _ _ hlt]
  exact hpos _ (hperm.subset (List.getElem_mem hlt))

theorem pushInterval_elem (h : List ℚ) (i : ℚ)
    (hh : ∀ x ∈ h, 0 < x ∧ x < 10) (hi : 0 < i ∧ i < 10) :
    ∀ x ∈ pushInterval h i, 0 < x ∧ x < 10 := by
  intro x hx
  simp only [pushInterval] at hx
  have hx2 : x ∈ h ++ [i] := by
    by_cases hlen : 20 < (h ++ [i]).length
    · rw [if_pos hlen] at hx
      exact List.tail_subset _ hx
    · rw [if_neg hlen] at hx
      exact hx
  rcases List.mem_append.mp hx2 with hx3 | hx3
  · exact hh x hx3
  · rw [List.mem_singleton] at hx3
    subst hx3
    exact hi

theorem pushInterval_suffix (h A : List ℚ) (i : ℚ) (hs : h <:+ A) :
    pushInterval h i <:+ A ++ [i] := by
  have h1 : h ++ [i] <:+ A ++ [i] := by
    obtain ⟨c, rfl⟩ := hs
    exact ⟨c, (List.append_assoc c h [i]).symm⟩
  simp only [pushInterval]
  split
  · exact (List.tail_suffix _).trans h1
  · exact h1

theorem pushInterval_length (h A : List ℚ) (i : ℚ)
    (hlen : h.length = min 20 A.length) :
    (pushInterval h i).length = min 20 (A ++ [i]).length := by
  simp only [pushInterval]
  split
  · rename_i hgt
    rw [List.length_tail]
    simp only [List.length_append, List.length_singleton] at hgt ⊢
    omega
  · rename_i hle
    simp only [List.length_append, List.length_singleton, not_lt] at hle ⊢
    omega

theorem observe_aux :
    ∀ (ts : List ℚ) (e : Estimator) (A : List ℚ),
      (∀ x ∈ e.sampleTimes, 0 < x ∧ x < 10) →
      e.sampleTimes <:+ A →
      e.sampleTimes.length = min 20 A.length →
      (10 ≤ e.sampleTimes.length →
        e.estimatedRate = 1 / medianOf e.sampleTimes ∧
        e.recommendedWindow = halfRound (min 60 (max (1/2)
          ((e.maxSamplesPerNode : ℚ) / e.estimatedRate)))) →
      (∀ x ∈ (observeFold ts e).sampleTimes, 0 < x ∧ x < 10) ∧
      (observeFold ts e).sampleTimes <:+ A ++ acceptedList e.lastTime ts ∧
      (observeFold ts e).sampleTimes.length
        = min 20 (A ++ acceptedList e.lastTime ts).length ∧
      (10 ≤ (observeFold ts e).sampleTimes.length →
        (observeFold ts e).estimatedRate
          = 1 / medianOf (observeFold ts e).sampleTimes ∧
        (observeFold ts e).recommendedWindow = halfRound (min 60 (max (1/2)
          (((observeFold ts e).maxSamplesPerNode : ℚ)
            / (observeFold ts e).estimatedRate))))
  | [], e, A, h1, h2, h3, h4 => by
    rcases hl : e.lastTime with _ | l <;>
      simp only [observeFold, List.foldl_nil, acceptedList, List.append_nil] <;>
      exact ⟨h1, h2, h3, h4⟩
  | t :: ts, e, A, h1, h2, h3, h4 => by
    rcases hl : e.lastTime with _ | l
    · have he : (observeEst t e).1 = { e with lastTime := some t } := by
        simp only [observeEst, hl]
      have ih := observe_aux ts { e with lastTime := some t } A h1 h2 h3 h4
      rw [observeFold_cons, he]
      simp only [acceptedList]
      exact ih
    · by_cases hacc : 0 < t - l ∧ t - l < 10
      · have htelem := pushInterval_elem e.sampleTimes (t - l) h1 hacc
        have htsuffix := pushInterval_suffix e.sampleTimes A (t - l) h2
        have htlen := pushInterval_length e.sampleTimes A (t - l) h3
        by_cases h10 : 10 ≤ (pushInterval e.sampleTimes (t - l)).length
        · have hne : pushInterval e.sampleTimes (t - l) ≠ [] := by
            intro hcon
            rw [hcon] at h10
            simp at h10
          have hmed : 0 < medianOf (pushInterval e.sampleTimes (t - l)) :=
            medianOf_pos _ hne (fun x hx => (htelem x hx).1)
          have he : (observeEst t e).1 =
              { e with
                  lastTime := some t
                  sampleTimes := pushInterval e.sampleTimes (t - l)
                  estimatedRate := 1 / medianOf (pushInterval e.sampleTimes (t - l))
                  recommendedWindow := halfRound (min 60 (max (1/2)
                    ((e.maxSamplesPerNode : ℚ)
                      / (1 / medianOf (pushInterval e.sampleTimes (t - l)))))) } := by
            simp only [observeEst, hl]
            rw [if_pos hacc, if_pos h10, if_pos hmed]
          have ih := observe_aux ts
            { e with
                lastTime := some t
                sampleTimes := pushInterval e.sampleTimes (t - l)
                estimatedRate := 1 / medianOf (pushInterval e.sampleTimes (t - l))
                recommendedWindow := halfRound (min 60 (max (1/2)
                  ((e.maxSamplesPerNode : ℚ)
                    / (1 / medianOf (pushInterval e.sampleTimes (t - l)))))) }
            (A ++ [t - l]) htelem htsuffix htlen (fun _ => ⟨rfl, rfl⟩)
          rw [observeFold_cons, he]
          simp only [acceptedList]
          rw [if_pos hacc, ← List.append_assoc]
          exact ih
        · have he : (observeEst t e).1 =
              { e with
                  lastTime := some t
                  sampleTimes := pushInterval e.sampleTimes (t - l) } := by
            simp only [observeEst, hl]
            rw [if_pos hacc, if_neg h10]
          have ih := observe_aux ts
            { e with
                lastTime := some t
                sampleTimes := pushInterval e.sampleTimes (t - l) }
            (A ++ [t - l]) htelem htsuffix htlen (fun hc => absurd hc h10)
          rw [observeFold_cons, he]
          simp only [acceptedList]
          rw [if_pos hacc, ← List.append_assoc]
          exact ih
      · have he : (observeEst t e).1 = { e with lastTime := some t } := by
          simp only [observeEst, hl]
          rw [if_neg hacc]
        have ih := observe_aux ts { e with lastTime := some t } A h1 h2 h3 h4
        rw [observeFold_cons, he]
        simp only [acceptedList]
        rw [if_neg hacc, List.nil_append]
        exact ih

/-! ## Claim C4: estimator functional contract -/

/-- Counterexample to claim C4 as stated: with the ten stored intervals
five times `0.1` followed by five times `0.2`, the code sets
`estimatedRate = 1/0.2 = 5` (it reads the upper middle element
`sorted[length/2]`), while 1 divided by the median of the stored
intervals - for an even count, the mean `0.15` of the two middle
elements - is `20/3`. -/
theorem observe_median_cex :
    10 ≤ (sessionAfter 5 bimodalTimestamps).est.sampleTimes.length ∧
    (sessionAfter 5 bimodalTimestamps).est.estimatedRate = 5 ∧
    1 / specMedian (sessionAfter 5 bimodalTimestamps).est.sampleTimes = 20/3 ∧
    (sessionAfter 5 bimodalTimestamps).est.estimatedRate
      ≠ 1 / specMedian (sessionAfter 5 bimodalTimestamps).est.sampleTimes := by
  have he : (sessionAfter 5 bimodalTimestamps).est
      = observeFold bimodalTimestamps initEstimator := sessionAfter_est 5 _
  have hhr : halfRound 60 = 60 := by
    have hfl : ⌊(60:ℚ) * 2 + 1/2⌋ = 120 := by norm_num [Int.floor_eq_iff]
    rw [halfRound, jsRound, hfl]
    norm_num
  have hev : observeFold bimodalTimestamps initEstimator =
      ⟨some (3/2), [1/10, 1/10, 1/10, 1/10, 1/10, 1/5, 1/5, 1/5, 1/5, 1/5],
        5, 60, 300⟩ := by
    norm_num [bimodalTimestamps, observeFold, observeEst, pushInterval,
      initEstimator, medianOf, List.insertionSort, List.orderedInsert,
      hhr, min_def, max_def]
  rw [he, hev]
  norm_num [specMedian, List.insertionSort, List.orderedInsert]

/-- Claim C4 (amended): for every session and every sequence of
`observe(timestamp)` calls, (a) every stored interval lies in the open
range `(0, 10)` seconds; (b) the history is exactly a suffix of the
accepted-interval sequence of length `min 20 (number accepted)` - the 20
most recent accepted intervals; (c) once at least 10 intervals are
stored, `estimatedRate` equals 1 divided by the element at index
`length / 2` of the ascending sort of the stored intervals (`medianOf`;
for an even count this is the upper middle element, not the statistical
median - see the counterexample), and `recommendedWindow` equals the
budget 300 divided by that rate, clamped to `[0.5, 60]` and rounded to
the nearest half second. -/
theorem observe_functional_spec (w0 : ℚ) (ts : List ℚ) :
    (∀ x ∈ (sessionAfter w0 ts).est.sampleTimes, 0 < x ∧ x < 10) ∧
    (sessionAfter w0 ts).est.sampleTimes <:+ acceptedList none ts ∧
    (sessionAfter w0 ts).est.sampleTimes.length
      = min 20 (acceptedList none ts).length ∧
    (10 ≤ (sessionAfter w0 ts).est.sampleTimes.length →
      (sessionAfter w0 ts).est.estimatedRate
        = 1 / medianOf (sessionAfter w0 ts).est.sampleTimes ∧
      (sessionAfter w0 ts).est.recommendedWindow
        = halfRound (min 60 (max (1/2)
            (300 / (sessionAfter w0 ts).est.estimatedRate)))) := by
  have haux := observe_aux ts initEstimator []
    (by intro x hx; simp [initEstimator] at hx)
    (by simp [initEstimator])
    (by simp [initEstimator])
    (by intro h; simp [initEstimator] at h)
  have hmax : ((observeFold ts initEstimator).maxSamplesPerNode : ℚ) = 300 := by
    rw [observeFold_maxSamples]
    norm_num [initEstimator]
  rw [sessionAfter_est]
  rw [hmax] at haux
  simpa [initEstimator] using haux

/-- Witness for the amended C4: after the eleven bimodal timestamps the
history holds ten intervals and the rate is the reciprocal of
`medianOf` of the stored history. -/
theorem observe_functional_spec_witness :
    10 ≤ (sessionAfter 5 bimodalTimestamps).est.sampleTimes.length ∧
    (sessionAfter 5 bimodalTimestamps).est.estimatedRate
      = 1 / medianOf (sessionAfter 5 bimodalTimestamps).est.sampleTimes := by
  have h10 : 10 ≤ (sessionAfter 5 bimodalTimestamps).est.sampleTimes.length := by
    have he : (sessionAfter 5 bimodalTimestamps).est
        = observeFold bimodalTimestamps initEstimator := sessionAfter_est 5 _
    have hhr : halfRound 60 = 60 := by
      have hfl : ⌊(60:ℚ) * 2 + 1/2⌋ = 120 := by norm_num [Int.floor_eq_iff]
      rw [halfRound, jsRound, hfl]
      norm_num
    rw [he]
    have hlen : (observeFold bimodalTimestamps initEstimator).sampleTimes.length
        = 10 := by
      norm_num [bimodalTimestamps, observeFold, observeEst, pushInterval,
        initEstimator, medianOf, List.insertionSort, List.orderedInsert,
        hhr, min_def, max_def]
    rw [hlen]
  exact ⟨h10, ((observe_functional_spec 5 bimodalTimestamps).2.2.2 h10).1⟩

/-! ## Claim C3: jitter scenario -/

theorem jitterFold_eval :
    observeFold jitterTimestamps initEstimator =
      ⟨some (1099/1000),
        [99/1000, 101/1000, 99/1000, 101/1000, 99/1000, 101/1000, 99/1000,
          101/1000, 99/1000, 101/1000, 99/1000], 1000/99, 59/2, 300⟩ := by
  have h1 : halfRound (303/10) = 61/2 := by
    have hfl : ⌊(303:ℚ)/10 * 2 + 1/2⌋ = 61 := by norm_num [Int.floor_eq_iff]
    rw [halfRound, jsRound, hfl]
    norm_num
  have h2 : halfRound (297/10) = 59/2 := by
    have hfl : ⌊(297:ℚ)/10 * 2 + 1/2⌋ = 59 := by norm_num [Int.floor_eq_iff]
    rw [halfRound, jsRound, hfl]
    norm_num
  norm_num [jitterTimestamps, observeFold, observeEst, pushInterval,
    initEstimator, medianOf, List.insertionSort, List.orderedInsert,
    h1, h2, min_def, max_def]

/-- Counterexample to claim C3 as stated: after the twelve jittered
observations the recommended window is `29.5` seconds, not `30`:
the code's `medianOf` of the eleven stored intervals is `0.099`, so the
raw recommendation is `300 / (1/0.099) = 29.7`, which rounds to the
nearest half second as `29.5`. -/
theorem rateEstimate_jitter_cex :
    (sessionAfter 5 jitterTimestamps).est.recommendedWindow = 59/2 ∧
    ((59:ℚ)/2 ≠ 30) := by
  rw [sessionAfter_est, jitterFold_eval]
  norm_num

/-- Claim C3 (amended): after the twelve jittered `observe()` calls
(intervals alternating `0.099`/`0.101`, starting with `0.099`),
`estimatedRateHz = 1000/99 ≈ 10.1` is within 2% of 10, and
`recommendedWindow` is `29.5` seconds - within half a second of the
claimed 30, but not equal to it.  This holds for every initial display
window `w0`. -/
theorem rateEstimate_jitter (w0 : ℚ) :
    |(sessionAfter w0 jitterTimestamps).est.estimatedRate - 10| ≤ (2/100) * 10 ∧
    (sessionAfter w0 jitterTimestamps).est.recommendedWindow = 59/2 := by
  rw [sessionAfter_est, jitterFold_eval]
  norm_num [abs_le]

/-! ## Claim C2: one-shot auto-adjustment -/

theorem ensureNodeCapacity_flags (n : ℕ) (st : State) :
    (ensureNodeCapacity n st).autoAdjusted = st.autoAdjusted ∧
    (ensureNodeCapacity n st).windowSec = st.windowSec ∧
    (ensureNodeCapacity n st).est = st.est := by
  unfold ensureNodeCapacity
  split <;> exact ⟨rfl, rfl, rfl⟩

theorem pushGraphSamples_flags (ln : ℚ) (p : SinglePayload) (st : State) :
    (pushGraphSamples ln p st).autoAdjusted = st.autoAdjusted ∧
    (pushGraphSamples ln p st).windowSec = st.windowSec ∧
    (pushGraphSamples ln p st).est = st.est := by
  unfold pushGraphSamples
  rcases p.timestamp with _ | ts0 <;>
    rcases p.nodes with _ | vals <;>
      rcases p.amps with _ | avals <;>
        (try rcases ht0 : st.t0Payload with _ | t0) <;>
          dsimp only <;>
          first
            | exact ⟨rfl, rfl, rfl⟩
            | exact ⟨by rw [pushFrame_autoAdjusted]
                        exact (ensureNodeCapacity_flags _ _).1,
                by rw [pushFrame_windowSec]
                   exact (ensureNodeCapacity_flags _ _).2.1,
                by rw [pushFrame_est]
                   exact (ensureNodeCapacity_flags _ _).2.2⟩

theorem batchFrameStep_flags (ln : ℚ) (p : BatchPayload) (s : State) (k : ℕ) :
    (batchFrameStep ln p s k).autoAdjusted = s.autoAdjusted ∧
    (batchFrameStep ln p s k).windowSec = s.windowSec ∧
    (batchFrameStep ln p s k).est = s.est := by
  unfold batchFrameStep
  rcases p.ts.getD k none with _ | tA
  · exact ⟨rfl, rfl, rfl⟩
  · dsimp only
    exact ⟨by rw [pushFrame_autoAdjusted]
              exact (ensureNodeCapacity_flags _ _).1,
      by rw [pushFrame_windowSec]
         exact (ensureNodeCapacity_flags _ _).2.1,
      by rw [pushFrame_est]
         exact (ensureNodeCapacity_flags _ _).2.2⟩

theorem batchT0Stage_flags (p : BatchPayload) (st : State) :
    (batchT0Stage p st).autoAdjusted = st.autoAdjusted ∧
    (batchT0Stage p st).windowSec = st.windowSec ∧
    (batchT0Stage p st).est = st.est := by
  unfold batchT0Stage
  split
  · rcases p.ts.getD 0 none with _ | t <;> exact ⟨rfl, rfl, rfl⟩
  · exact ⟨rfl, rfl, rfl⟩

theorem batchFramesStage_flags (ln : ℚ) (p : BatchPayload) (st : State) :
    (batchFramesStage ln p st).autoAdjusted = st.autoAdjusted ∧
    (batchFramesStage ln p st).windowSec = st.windowSec ∧
    (batchFramesStage ln p st).est = st.est := by
  unfold batchFramesStage
  refine ⟨?_, ?_, ?_⟩
  · apply foldl_preserve State.autoAdjusted
    intro b a
    exact (batchFrameStep_flags ln p b a).1
  · apply foldl_preserve State.windowSec
    intro b a
    exact (batchFrameStep_flags ln p b a).2.1
  · apply foldl_preserve State.est
    intro b a
    exact (batchFrameStep_flags ln p b a).2.2

theorem pushGraphBatch_flags (ln : ℚ) (p : BatchPayload) (st : State) :
    (pushGraphBatch ln p st).autoAdjusted = (batchEstStage p st).autoAdjusted ∧
    (pushGraphBatch ln p st).windowSec = (batchEstStage p st).windowSec ∧
    (pushGraphBatch ln p st).est = (batchEstStage p st).est := by
  refine ⟨?_, ?_, ?_⟩
  · show (batchFramesStage ln p (batchT0Stage p (batchEstStage p st))).autoAdjusted = _
    rw [(batchFramesStage_flags ln p _).1, (batchT0Stage_flags p _).1]
  · show (batchFramesStage ln p (batchT0Stage p (batchEstStage p st))).windowSec = _
    rw [(batchFramesStage_flags ln p _).2.1, (batchT0Stage_flags p _).2.1]
  · show (batchFramesStage ln p (batchT0Stage p (batchEstStage p st))).est = _
    rw [(batchFramesStage_flags ln p _).2.2, (batchT0Stage_flags p _).2.2]

theorem adjustFired_ineq (t : ℚ) (st : State) (h : adjustFired t st) :
    1 < st.windowSec - (observeEst t st.est).1.recommendedWindow := by
  obtain ⟨-, -, habs, hlt⟩ := h
  rw [abs_of_pos (by linarith)] at habs
  exact habs

theorem estimateSampleRate_fired (t : ℚ) (st : State) (h : adjustFired t st) :
    (estimateSampleRate t st).autoAdjusted = true ∧
    (estimateSampleRate t st).windowSec = (observeEst t st.est).1.recommendedWindow := by
  unfold estimateSampleRate
  rw [if_pos h]
  exact ⟨rfl, rfl⟩

theorem estimateSampleRate_not_fired (t : ℚ) (st : State) (h : ¬ adjustFired t st) :
    (estimateSampleRate t st).autoAdjusted = st.autoAdjusted ∧
    (estimateSampleRate t st).windowSec = st.windowSec := by
  unfold estimateSampleRate
  rw [if_neg h]
  exact ⟨rfl, rfl⟩

theorem batchEstStage_fired (ln : ℚ) (p : BatchPayload) (st : State)
    (h : eventFires st (.batch ln p)) :
    (batchEstStage p st).autoAdjusted = true ∧
    (batchEstStage p st).windowSec = (batchEstStage p st).est.recommendedWindow ∧
    1 < st.windowSec - (batchEstStage p st).windowSec := by
  obtain ⟨hn, hf⟩ := h
  unfold batchEstStage
  rw [if_pos hn]
  rcases hg : p.ts.getD 0 none with _ | t
  · rw [hg] at hf
    exact absurd hf (by simp [firesAt])
  · rw [hg] at hf
    have hfa : adjustFired t st := hf
    refine ⟨(estimateSampleRate_fired t st hfa).1, ?_, ?_⟩
    · rw [(estimateSampleRate_fired t st hfa).2, estimateSampleRate_est]
    · rw [(estimateSampleRate_fired t st hfa).2]
      exact adjustFired_ineq t st hfa

theorem stepEvent_flag_mono (st : State) (ev : Event)
    (h : st.autoAdjusted = true) : (stepEvent st ev).autoAdjusted = true := by
  cases ev with
  | single ln p => rw [stepEvent, (pushGraphSamples_flags ln p st).1]; exact h
  | batch ln p =>
    rw [stepEvent, (pushGraphBatch_flags ln p st).1]
    unfold batchEstStage
    split
    · rcases p.ts.getD 0 none with _ | t
      · exact h
      · by_cases hf : adjustFired t st
        · exact (estimateSampleRate_fired t st hf).1
        · rw [(estimateSampleRate_not_fired t st hf).1]; exact h
    · exact h
  | manualWin v =>
    rw [stepEvent]
    unfold manualSetWindow
    split
    · rfl
    · exact h
  | clearAll => exact h
  | selectVisible s =>
    rw [stepEvent]
    unfold applyVisibleSelection
    split
    · exact h
    · exact h

theorem not_eventFires_of_adjusted (st : State) (ev : Event)
    (h : st.autoAdjusted = true) : ¬ eventFires st ev := by
  cases ev with
  | batch ln p =>
    rintro ⟨hn, hf⟩
    rcases hg : p.ts.getD 0 none with _ | t
    · rw [hg] at hf
      exact absurd hf (by simp [firesAt])
    · rw [hg] at hf
      have hfa : adjustFired t st := hf
      obtain ⟨-, hfalse, -, -⟩ := hfa
      rw [h] at hfalse
      exact absurd hfalse (by simp)
  | single ln p => exact fun hcon => hcon
  | manualWin v => exact fun hcon => hcon
  | clearAll => exact fun hcon => hcon
  | selectVisible s => exact fun hcon => hcon

theorem stepEvent_fired_adjusted (st : State) (ev : Event)
    (h : eventFires st ev) : (stepEvent st ev).autoAdjusted = true := by
  cases ev with
  | batch ln p =>
    rw [stepEvent, (pushGraphBatch_flags ln p st).1]
    exact (batchEstStage_fired ln p st h).1
  | single ln p => exact absurd h (fun hcon => hcon)
  | manualWin v => exact absurd h (fun hcon => hcon)
  | clearAll => exact absurd h (fun hcon => hcon)
  | selectVisible s => exact absurd h (fun hcon => hcon)

theorem firedCount_zero :
    ∀ (evs : List Event) (st : State), st.autoAdjusted = true →
      firedCount st evs = 0
  | [], _, _ => rfl
  | ev :: evs, st, h => by
    rw [firedCount, if_neg (not_eventFires_of_adjusted st ev h)]
    rw [firedCount_zero evs (stepEvent st ev) (stepEvent_flag_mono st ev h)]

/-- Claim C2: across any session - any event sequence (ingestion calls,
manual window edits, clear-all, visibility changes) from any state - the
automatic display-window adjustment fires at most once; when it fires it
sets the window to the just-computed recommendation, strictly below the
previous window and smaller by more than 1 second (so it fires only when
the current window exceeds the recommendation by more than 1 second, and
it only ever shrinks the window); any manual in-range display-window
change sets the one-shot flag, and once the flag is set no automatic
adjustment ever occurs afterwards. -/
theorem autoAdjust_once (st0 : State) :
    (∀ evs : List Event, firedCount st0 evs ≤ 1) ∧
    (∀ (st : State) (ev : Event), eventFires st ev →
      (stepEvent st ev).windowSec = (stepEvent st ev).est.recommendedWindow ∧
      (stepEvent st ev).windowSec < st.windowSec ∧
      1 < st.windowSec - (stepEvent st ev).windowSec) ∧
    (∀ (st : State) (v : ℚ), 1/2 ≤ v → v ≤ 60 →
      (manualSetWindow v st).autoAdjusted = true ∧
      (manualSetWindow v st).windowSec = v) ∧
    (∀ (st : State) (evs : List Event), st.autoAdjusted = true →
      firedCount st evs = 0) := by
  have honce : ∀ (evs : List Event) (st : State), firedCount st evs ≤ 1 := by
    intro evs
    induction evs with
    | nil => intro st; exact Nat.zero_le 1
    | cons ev evs ih =>
      intro st
      rw [firedCount]
      by_cases hf : eventFires st ev
      · rw [if_pos hf, firedCount_zero evs _ (stepEvent_fired_adjusted st ev hf)]
      · rw [if_neg hf]
        simpa using ih (stepEvent st ev)
  refine ⟨fun evs => honce evs st0, ?_, ?_, fun st evs h => firedCount_zero evs st h⟩
  · intro st ev h
    cases ev with
    | batch ln p =>
      have hflags := pushGraphBatch_flags ln p st
      have hfired := batchEstStage_fired ln p st h
      rw [stepEvent, hflags.2.1, hflags.2.2]
      exact ⟨hfired.2.1, by linarith [hfired.2.2], hfired.2.2⟩
    | single ln p => exact absurd h (fun hcon => hcon)
    | manualWin v => exact absurd h (fun hcon => hcon)
    | clearAll => exact absurd h (fun hcon => hcon)
    | selectVisible s => exact absurd h (fun hcon => hcon)
  · intro st v h1 h2
    unfold manualSetWindow
    rw [if_pos ⟨h1, h2⟩]
    exact ⟨rfl, rfl⟩

/-- Witness for C2: a manual window change to 1s from the initial state
sets the one-shot flag. -/
theorem autoAdjust_once_witness :
    (1:ℚ)/2 ≤ 1 ∧ ((1:ℚ) ≤ 60) ∧
    (manualSetWindow 1 (initState 5)).autoAdjusted = true := by
  refine ⟨by norm_num, by norm_num, ?_⟩
  exact ((autoAdjust_once (initState 5)).2.2.1 (initState 5) 1
    (by norm_num) (by norm_num)).1

/-! ## Claim C6: batch growth -/

theorem getD_set_self {α : Type _} (l : List α) (i : ℕ) (a d : α)
    (h : i < l.length) : (l.set i a).getD i d = a := by
  rw [List.getD_eq_getElem _ _ (by rw [List.length_set]; exact h)]
  exact List.getElem_set_self _

theorem getD_set_ne {α : Type _} (l : List α) (i j : ℕ) (a d : α)
    (hne : i ≠ j) : (l.set i a).getD j d = l.getD j d := by
  by_cases hj : j < l.length
  · rw [List.getD_eq_getElem _ _ (by rw [List.length_set]; exact hj),
      List.getD_eq_getElem _ _ hj]
    exact List.getElem_set_ne hne _
  · rw [List.getD_eq_default _ _ (by rw [List.length_set]; omega),
      List.getD_eq_default _ _ (by omega)]

theorem pushFrameStep_data (t : ℚ) (vals : List (Option ℚ)) (s : State) (j : ℕ) :
    (pushFrameStep t vals s j).windowSec = s.windowSec ∧
    (pushFrameStep t vals s j).est = s.est ∧
    (pushFrameStep t vals s j).dataByNode.length = s.dataByNode.length := by
  unfold pushFrameStep
  cases vals.getD j none
  · exact ⟨rfl, rfl, rfl⟩
  · exact ⟨rfl, rfl, by simp [pushSample, List.length_set]⟩

/-- Effect of the write loop over channel indices `0..m-1` on each
channel's buffer: channel `i < m` receives exactly its own sample
(pushed onto its previous buffer, with the windowing parameters taken
from the entry state), all other channels are untouched. -/
theorem foldRange_pushFrameStep (t : ℚ) (vals : List (Option ℚ)) :
    ∀ (m : ℕ) (st : State), m ≤ st.dataByNode.length →
      ((List.range m).foldl (pushFrameStep t vals) st).windowSec = st.windowSec ∧
      ((List.range m).foldl (pushFrameStep t vals) st).est = st.est ∧
      ((List.range m).foldl (pushFrameStep t vals) st).dataByNode.length
        = st.dataByNode.length ∧
      ∀ i,
        ((List.range m).foldl (pushFrameStep t vals) st).dataByNode.getD i []
          = if i < m then
              (match vals.getD i none with
               | some y => pushSampleArr st.windowSec st.est.maxSamplesPerNode
                   (st.dataByNode.getD i []) t y
               | none => st.dataByNode.getD i [])
            else st.dataByNode.getD i []
  | 0, st, _ => by
    refine ⟨rfl, rfl, rfl, ?_⟩
    intro i
    simp
  | m + 1, st, hm => by
    obtain ⟨hW, hE, hL, hG⟩ := foldRange_pushFrameStep t vals m st (by omega)
    rw [List.range_succ, List.foldl_append, List.foldl_cons, List.foldl_nil]
    have hmlt : m < st.dataByNode.length := by omega
    obtain ⟨sW, sE, sL⟩ := pushFrameStep_data t vals
      ((List.range m).foldl (pushFrameStep t vals) st) m
    refine ⟨by rw [sW, hW], by rw [sE, hE], by rw [sL, hL], ?_⟩
    intro i
    rcases hv : vals.getD m none with _ | y
    · have hstep : pushFrameStep t vals
          ((List.range m).foldl (pushFrameStep t vals) st) m
          = (List.range m).foldl (pushFrameStep t vals) st := by
        unfold pushFrameStep
        rw [hv]
      rw [hstep, hG i]
      by_cases hi : i < m
      · rw [if_pos hi, if_pos (by omega)]
      · by_cases hie : i = m
        · subst hie
          rw [if_neg hi, if_pos (by omega), hv]
        · rw [if_neg hi, if_neg (by omega)]
    · have hstep : pushFrameStep t vals
          ((List.range m).foldl (pushFrameStep t vals) st) m
          = pushSample m t y ((List.range m).foldl (pushFrameStep t vals) st) := by
        unfold pushFrameStep
        rw [hv]
      rw [hstep]
      by_cases hie : i = m
      · subst hie
        have hilen : i < ((List.range i).foldl (pushFrameStep t vals) st).dataByNode.length := by
          rw [hL]
          exact hmlt
        rw [pushSample, getD_set_self _ _ _ _ hilen]
        rw [if_pos (by omega), hv, hW, hE]
        have hGi := hG i
        rw [if_neg (by omega)] at hGi
        rw [hGi]
      · rw [pushSample]
        show ((((List.range m).foldl (pushFrameStep t vals) st).dataByNode.set m _)).getD i []
          = _
        rw [getD_set_ne _ _ _ _ _ (fun hcon => hie hcon.symm), hG i]
        by_cases hi : i < m
        · rw [if_pos hi, if_pos (by omega)]
        · rw [if_neg hi, if_neg (by omega)]

theorem estimateSampleRate_data (t : ℚ) (st : State) :
    (estimateSampleRate t st).nodeCount = st.nodeCount ∧
    (estimateSampleRate t st).dataByNode = st.dataByNode ∧
    (estimateSampleRate t st).t0Payload = st.t0Payload := by
  unfold estimateSampleRate
  split <;> exact ⟨rfl, rfl, rfl⟩

theorem batchEstStage_data (p : BatchPayload) (st : State) :
    (batchEstStage p st).nodeCount = st.nodeCount ∧
    (batchEstStage p st).dataByNode = st.dataByNode ∧
    (batchEstStage p st).t0Payload = st.t0Payload := by
  unfold batchEstStage
  split
  · rcases p.ts.getD 0 none with _ | t
    · exact ⟨rfl, rfl, rfl⟩
    · exact estimateSampleRate_data t st
  · exact ⟨rfl, rfl, rfl⟩

/-- Claim C6: a single-frame batch carrying `channelCount + 1` amplitudes
grows the tracked channel set by exactly one, and each previously
existing channel's buffer is simply its old buffer with that channel's
own sample appended through the normal `pushSample` path (with the
display window and cap read after the estimator stage, and the timestamp
made relative to the session origin) - the growth itself leaves the old
buffers untouched. -/
theorem ensureNodeCapacity_grow (n : ℕ) (st : State) (h : ¬ (n ≤ st.nodeCount)) :
    (ensureNodeCapacity n st).nodeCount = n ∧
    (ensureNodeCapacity n st).dataByNode
      = st.dataByNode ++ List.replicate (n - st.nodeCount) [] ∧
    (ensureNodeCapacity n st).windowSec = st.windowSec ∧
    (ensureNodeCapacity n st).est = st.est := by
  unfold ensureNodeCapacity
  rw [if_neg h]
  exact ⟨rfl, rfl, rfl, rfl⟩

theorem pushBatch_growth (ln τ : ℚ) (st : State) (frame : List (Option ℚ))
    (hlen : st.dataByNode.length = st.nodeCount)
    (hw : frame.length = st.nodeCount + 1) :
    (pushGraphBatch ln ⟨[some τ], [frame]⟩ st).nodeCount = st.nodeCount + 1 ∧
    ∀ i, i < st.nodeCount →
      (pushGraphBatch ln ⟨[some τ], [frame]⟩ st).dataByNode.getD i []
        = match frame.getD i none with
          | some y =>
            pushSampleArr (batchEstStage ⟨[some τ], [frame]⟩ st).windowSec
              (batchEstStage ⟨[some τ], [frame]⟩ st).est.maxSamplesPerNode
              (st.dataByNode.getD i []) (τ - st.t0Payload.getD τ) y
          | none => st.dataByNode.getD i [] := by
  obtain ⟨e1n, e1d, e1t⟩ := batchEstStage_data ⟨[some τ], [frame]⟩ st
  have h2 : (batchT0Stage ⟨[some τ], [frame]⟩
        (batchEstStage ⟨[some τ], [frame]⟩ st)).t0Payload
          = some (st.t0Payload.getD τ) ∧
      (batchT0Stage ⟨[some τ], [frame]⟩
        (batchEstStage ⟨[some τ], [frame]⟩ st)).nodeCount = st.nodeCount ∧
      (batchT0Stage ⟨[some τ], [frame]⟩
        (batchEstStage ⟨[some τ], [frame]⟩ st)).dataByNode = st.dataByNode ∧
      (batchT0Stage ⟨[some τ], [frame]⟩
        (batchEstStage ⟨[some τ], [frame]⟩ st)).windowSec
          = (batchEstStage ⟨[some τ], [frame]⟩ st).windowSec ∧
      (batchT0Stage ⟨[some τ], [frame]⟩
        (batchEstStage ⟨[some τ], [frame]⟩ st)).est
          = (batchEstStage ⟨[some τ], [frame]⟩ st).est := by
    unfold batchT0Stage
    rcases h0 : st.t0Payload with _ | t0
    · rw [if_pos ⟨by rw [e1t, h0], by norm_num⟩]
      dsimp only [List.getD_cons_zero]
      exact ⟨rfl, e1n, e1d, rfl, rfl⟩
    · rw [if_neg]
      · exact ⟨by rw [e1t, h0]; rfl, e1n, e1d, rfl, rfl⟩
      · rintro ⟨hcon, -⟩
        rw [e1t, h0] at hcon
        cases hcon
  obtain ⟨h2t, h2n, h2d, h2w, h2e⟩ := h2
  have h2len : (batchT0Stage ⟨[some τ], [frame]⟩
      (batchEstStage ⟨[some τ], [frame]⟩ st)).dataByNode.length = st.nodeCount := by
    rw [h2d, hlen]
  have hr1 : List.range 1 = [0] := by simp [List.range_succ]
  have hstep : batchFramesStage ln ⟨[some τ], [frame]⟩
        (batchT0Stage ⟨[some τ], [frame]⟩ (batchEstStage ⟨[some τ], [frame]⟩ st))
      = pushFrame (τ - st.t0Payload.getD τ) frame
          (ensureNodeCapacity frame.length
            (batchT0Stage ⟨[some τ], [frame]⟩
              (batchEstStage ⟨[some τ], [frame]⟩ st))) := by
    unfold batchFramesStage
    show List.foldl (batchFrameStep ln ⟨[some τ], [frame]⟩)
      (batchT0Stage ⟨[some τ], [frame]⟩ (batchEstStage ⟨[some τ], [frame]⟩ st))
      (List.range (min 1 1)) = _
    rw [(by norm_num : min 1 1 = 1), hr1, List.foldl_cons, List.foldl_nil]
    unfold batchFrameStep
    dsimp only [List.getD_cons_zero]
    rw [h2t]
  have hgrow : ¬ (frame.length ≤ (batchT0Stage ⟨[some τ], [frame]⟩
      (batchEstStage ⟨[some τ], [frame]⟩ st)).nodeCount) := by
    rw [h2n, hw]
    omega
  obtain ⟨gn, gd, gw, ge⟩ := ensureNodeCapacity_grow frame.length
    (batchT0Stage ⟨[some τ], [frame]⟩ (batchEstStage ⟨[some τ], [frame]⟩ st)) hgrow
  constructor
  · show (batchFramesStage ln ⟨[some τ], [frame]⟩
        (batchT0Stage ⟨[some τ], [frame]⟩
          (batchEstStage ⟨[some τ], [frame]⟩ st))).nodeCount = st.nodeCount + 1
    rw [hstep, pushFrame_nodeCount, gn, hw]
  · intro i hi
    show (batchFramesStage ln ⟨[some τ], [frame]⟩
        (batchT0Stage ⟨[some τ], [frame]⟩
          (batchEstStage ⟨[some τ], [frame]⟩ st))).dataByNode.getD i [] = _
    rw [hstep]
    unfold pushFrame
    have hminE : min (ensureNodeCapacity frame.length
        (batchT0Stage ⟨[some τ], [frame]⟩
          (batchEstStage ⟨[some τ], [frame]⟩ st))).nodeCount frame.length
        = frame.length := by
      rw [gn]
      omega
    rw [hminE]
    have hElen : frame.length ≤ (ensureNodeCapacity frame.length
        (batchT0Stage ⟨[some τ], [frame]⟩
          (batchEstStage ⟨[some τ], [frame]⟩ st))).dataByNode.length := by
      rw [gd, List.length_append, List.length_replicate, h2len, h2n]
      omega
    obtain ⟨-, -, -, hG⟩ := foldRange_pushFrameStep (τ - st.t0Payload.getD τ) frame
      frame.length _ hElen
    rw [hG i, if_pos (by omega)]
    rcases frame.getD i none with _ | y
    · dsimp only
      rw [gd, List.getD_append _ _ _ _ (by rw [h2len]; omega), h2d]
    · dsimp only
      rw [gd, List.getD_append _ _ _ _ (by rw [h2len]; omega), h2d, gw, ge, h2w, h2e]

/-- Witness for C6: growing from the initial 15 channels with a 16-wide
frame sets the channel count to 16. -/
theorem pushBatch_growth_witness :
    (initState 5).dataByNode.length = (initState 5).nodeCount ∧
    (List.replicate 16 (some (1:ℚ))).length = (initState 5).nodeCount + 1 ∧
    (pushGraphBatch 0 ⟨[some 0], [List.replicate 16 (some 1)]⟩
      (initState 5)).nodeCount = (initState 5).nodeCount + 1 := by
  refine ⟨by simp [initState], by simp [initState], ?_⟩
  exact (pushBatch_growth 0 0 (initState 5) (List.replicate 16 (some 1))
    (by simp [initState]) (by simp [initState])).1

end RTA
